import Mathlib

/-!
Verification development for the `classroom_reservation` calendar store
(`src/utils/calendarStore.ts`, third revision, and the public-calendar API
handler `src/unnamed/part_005`, first revision — the revisions the line
references of the claims point at).

Modelling conventions:
* JavaScript strings are modelled as `Str := List Char`.
* JavaScript `Date` values and ISO-8601 `dateTime` strings are modelled as
  `Int` timestamps: `Date.prototype.toISOString` is an order-isomorphism
  between timestamps and ISO strings, so comparisons on either side agree.
* `undefined` / absent values are modelled with `Option`.
* Persisted JSON is modelled with an explicit value type `Jval`;
  `JSON.parse ∘ JSON.stringify` is the identity on this model.
* Filesystem side effects are modelled with an explicit state
  (`StoreState`) and, for the write-path shape, an operation trace
  (`FsOp`). All I/O primitives are assumed to succeed; the claims under
  study are about the functional behaviour on the success path.
-/

namespace ClassroomReservation

abbrev Str := List Char

/-! ### The summary regex `/\[(\d+)\]\s*(.*)/`

`formatEvents` (calendarStore.ts lines 604-625) extracts `room` and the
cleaned subject with `summary?.match(/\[(\d+)\]\s*(.*)/)`. The regex is
not anchored: `String.prototype.match` returns the leftmost match. `\d`
is exactly `[0-9]`; `\s` is JS whitespace; `.` matches anything except a
line terminator. -/

/-- JS `\s` whitespace (the characters relevant to this code base; the
remaining Unicode space characters behave identically). -/
def isJsSpace (c : Char) : Bool :=
  c = ' ' || c = '\t' || c = '\n' || c = '\r' ||
  c = '\x0b' || c = '\x0c' || c = ' '

/-- JS line terminators, which `.` does not match. -/
def isLineTerm (c : Char) : Bool :=
  c = '\n' || c = '\r' || c = ' ' || c = ' '

/-- Attempt to match `\[(\d+)\]` at the head of the string. On success,
returns the captured digits and the remainder after the closing bracket. -/
def tryTag : Str → Option (Str × Str)
  | '[' :: rest =>
    let ds := rest.takeWhile Char.isDigit
    if ds.isEmpty then none
    else
      match rest.dropWhile Char.isDigit with
      | ']' :: rest2 => some (ds, rest2)
      | _ => none
  | _ => none

/-- Leftmost occurrence of `\[(\d+)\]`: scan positions left to right, as
the JS regex engine does. -/
def findTag : Str → Option (Str × Str)
  | [] => none
  | c :: rest =>
    match tryTag (c :: rest) with
    | some r => some r
    | none => findTag rest

/-- Full model of `s.match(/\[(\d+)\]\s*(.*)/)`: on a match, group 1 is
the digits and group 2 is the text after the bracket, with the maximal
run of whitespace consumed by `\s*` and `(.*)` stopping at a line
terminator. Returns `none` when the regex does not match (JS `null`). -/
def summaryMatch (s : Str) : Option (Str × Str) :=
  (findTag s).map fun p =>
    (p.1, (p.2.dropWhile isJsSpace).takeWhile fun c => !isLineTerm c)

/-- Model of the destructuring
`const [, room, eventName] = event.summary?.match(re) || [null, '', event.summary]`:
an absent summary (`undefined`) short-circuits `?.` and takes the
fallback, as does a summary on which the regex does not match. -/
def matchSummary : Option Str → Str × Option Str
  | none => ([], none)
  | some s =>
    match summaryMatch s with
    | some (room, rest) => (room, some rest)
    | none => ([], some s)

/-! ### Event data model -/

/-- The `{ dateTime, timeZone }` pair of a `CalendarEvent`; `dateTime`
is the timestamp produced by `toISOString()` (see module header). -/
structure EventDateTime where
  dateTime : Int
  timeZone : Str
deriving DecidableEq, Repr

/-- The `CalendarEvent` type of calendarStore.ts (lines 572-588).
`subject` is `Option Str` because a record with an absent summary yields
`subject = undefined`; `location` is the optional `displayName` string
(the one-field wrapper object is elided). -/
structure CalendarEvent where
  id : Str
  subject : Option Str
  room : Str
  start : EventDateTime
  «end» : EventDateTime
  location : Option Str
  description : Option Str
deriving DecidableEq, Repr

/-- A raw `node-ical` record as consumed by `formatEvents`: `type`,
`uid`, optional `summary`, `start`/`end` JS `Date`s (timestamps),
optional `location` and `description`. -/
structure RawEvent where
  type : Str
  uid : Str
  summary : Option Str
  start : Int
  «end» : Int
  location : Option Str
  description : Option Str
deriving DecidableEq, Repr

/-- Body of the `map` in `formatEvents` (calendarStore.ts lines 607-624).
`location` is wrapped only when truthy (an empty string yields
`undefined`). -/
def formatEvent (ev : RawEvent) : CalendarEvent :=
  let rs := matchSummary ev.summary
  { id := ev.uid
    subject := rs.2
    room := rs.1
    start := { dateTime := ev.start, timeZone := "Asia/Tokyo".data }
    «end» := { dateTime := ev.«end», timeZone := "Asia/Tokyo".data }
    location :=
      match ev.location with
      | some s => if s.isEmpty then none else some s
      | none => none
    description := ev.description }

/-- `formatEvents` (calendarStore.ts lines 604-625): keep the `VEVENT`
records (in `Object.values` order) and format each one. -/
def formatEvents (events : List RawEvent) : List CalendarEvent :=
  (events.filter fun e => e.type = "VEVENT".data).map formatEvent

/-! ### JSON values and the persisted snapshot

`saveToDisk` (calendarStore.ts lines 657-679) persists
`JSON.stringify({ events: cachedEvents, lastFetched })`;
`loadFromDisk` (lines 627-655) reads it back with
`cachedEvents = parsed.events || []` and
`lastFetched = parsed.lastFetched ?? Date.now()`. -/

/-- JSON values (the result of `JSON.parse`). Object fields are an
ordered association list, matching `JSON.stringify`'s key order. -/
inductive Jval where
  | jnull : Jval
  | jbool : Bool → Jval
  | jnum : Int → Jval
  | jstr : Str → Jval
  | jarr : List Jval → Jval
  | jobj : List (Str × Jval) → Jval
deriving Repr

/-- Property lookup `obj.key` on a parsed JSON object: first binding
wins (`JSON.parse` keeps the last duplicate, but `JSON.stringify` never
emits duplicates, so on this code's payloads the two agree). -/
def jlookup : List (Str × Jval) → Str → Option Jval
  | [], _ => none
  | (k, v) :: rest, key => if k = key then some v else jlookup rest key

/-- JS truthiness of a JSON value (arrays and objects are truthy, even
when empty). -/
def jsTruthy : Jval → Bool
  | .jnull => false
  | .jbool b => b
  | .jnum n => n != 0
  | .jstr s => !s.isEmpty
  | .jarr _ => true
  | .jobj _ => true

/-- JSON encoding of one `CalendarEvent`, exactly as
`JSON.stringify` serialises the object built by `formatEvents`:
properties in declaration order, with `undefined`-valued properties
(`subject`, `location`, `description`) omitted. -/
def eventJson (e : CalendarEvent) : Jval :=
  .jobj
    ([("id".data, .jstr e.id)]
      ++ (match e.subject with
          | some s => [("subject".data, Jval.jstr s)]
          | none => [])
      ++ [("room".data, .jstr e.room),
          ("start".data, .jobj
            [("dateTime".data, .jnum e.start.dateTime),
             ("timeZone".data, .jstr e.start.timeZone)]),
          ("end".data, .jobj
            [("dateTime".data, .jnum e.«end».dateTime),
             ("timeZone".data, .jstr e.«end».timeZone)])]
      ++ (match e.location with
          | some s => [("location".data, Jval.jobj
              [("displayName".data, Jval.jstr s)])]
          | none => [])
      ++ (match e.description with
          | some s => [("description".data, Jval.jstr s)]
          | none => []))

/-- The fields of the persisted snapshot object
`{ events: cachedEvents, lastFetched }` (calendarStore.ts line 659),
in `JSON.stringify` order. -/
def snapshotFields (events : List CalendarEvent) (lastFetched : Option Int) :
    List (Str × Jval) :=
  [("events".data, .jarr (events.map eventJson)),
   ("lastFetched".data, match lastFetched with
     | some n => Jval.jnum n
     | none => Jval.jnull)]

/-- The persisted snapshot as a single JSON value. -/
def snapshotJson (events : List CalendarEvent) (lastFetched : Option Int) : Jval :=
  .jobj (snapshotFields events lastFetched)

/-- The assignments of `loadFromDisk` (calendarStore.ts lines 648-650)
applied to a parsed JSON object: the value stored into `cachedEvents`
is `parsed.events || []` (falsy → `[]`), and the value stored into
`lastFetched` is `parsed.lastFetched ?? Date.now()` (nullish → the
current time, any other value unchanged). -/
def loadSnapshot (fields : List (Str × Jval)) (now : Int) : Jval × Jval :=
  (match jlookup fields "events".data with
    | some v => if jsTruthy v then v else .jarr []
    | none => .jarr [],
   match jlookup fields "lastFetched".data with
    | some .jnull => .jnum now
    | some v => v
    | none => .jnum now)

/-! ### Filesystem operations performed by `saveToDisk` -/

/-- The filesystem operations the store can issue. -/
inductive FsOp where
  | mkdirRec : Str → FsOp
  | writeFile : Str → Jval → FsOp
  | rename : Str → Str → FsOp
  | copyFile : Str → Str → FsOp
deriving Repr

/-- `getStorageFile()` (calendarStore.ts lines 594-597):
`path.join(base, 'public-calendar.json')` with `base` the cache
directory. -/
def storageFile (base : Str) : Str := base ++ "/public-calendar.json".data

/-- The disk operations `saveToDisk` performs (calendarStore.ts lines
672-674): `mkdir(path.dirname(file), {recursive})` then a single
`writeFile(file, payload)` of the snapshot, directly at the storage
path. -/
def saveToDiskOps (base : Str) (events : List CalendarEvent)
    (lastFetched : Option Int) : List FsOp :=
  [.mkdirRec base, .writeFile (storageFile base) (snapshotJson events lastFetched)]

/-- Modelled from the spec: the spec's atomic-write discipline — "the
snapshot is first written to a temporary path and then renamed into
place". An operation trace follows it only if it renames some other
path onto the target. -/
def atomicViaTempRename (ops : List FsOp) (target : Str) : Bool :=
  ops.any fun op =>
    match op with
    | .rename src dst => dst = target && src != target
    | _ => false

/-! ### Store state and `fetchAndStore` -/

/-- The mutable state of the calendar store: the in-memory cache
(`cachedEvents`, `lastFetched`) and the contents of the storage path
and of its `.bak` sibling (`none` = file absent). The optional Neon
backend receives the same payload as the disk and is not modelled
separately. -/
structure StoreState where
  cachedEvents : List CalendarEvent
  lastFetched : Option Int
  diskMain : Option Jval
  diskBak : Option Jval
deriving Repr

/-- `backupExistingStorage` (calendarStore.ts lines 681-694): if the
storage file exists, copy it over the `.bak` path; if `stat` fails
(file absent) the error is swallowed and nothing happens. -/
def backupExistingStorage (st : StoreState) : StoreState :=
  match st.diskMain with
  | some j => { st with diskBak := some j }
  | none => st

/-- State effect of `saveToDisk` (calendarStore.ts lines 657-679): the
snapshot of the current in-memory cache is written at the storage path
(the operation-level shape is `saveToDiskOps`). -/
def saveToDisk (st : StoreState) : StoreState :=
  { st with diskMain := some (snapshotJson st.cachedEvents st.lastFetched) }

/-- Result value of `fetchAndStore`: `{ ok: true, count, keptPrevious? }`
(`keptPrevious` is `undefined`, i.e. `false`, on the normal path) or
`{ ok: false, error }`. -/
inductive FetchResult where
  | success : Nat → Bool → FetchResult
  | failure : Str → FetchResult
deriving DecidableEq, Repr

/-- The body of one successful `fetchAndStore` attempt (calendarStore.ts
lines 734-764), after the text has been fetched and parsed into the raw
record list `raws`: if the formatted list is empty while the cache is
non-empty, back up and re-persist the existing snapshot and report
`keptPrevious: true`; otherwise back up, replace the cache, stamp
`lastFetched := Date.now()` and persist. -/
def fetchOnce (raws : List RawEvent) (now : Int) (st : StoreState) :
    StoreState × FetchResult :=
  let formatted := formatEvents raws
  if formatted.isEmpty && !st.cachedEvents.isEmpty then
    (saveToDisk (backupExistingStorage st), .success st.cachedEvents.length true)
  else
    let st' := backupExistingStorage st
    let st'' := { st' with cachedEvents := formatted, lastFetched := some now }
    (saveToDisk st'', .success formatted.length false)

/-- Observable steps of the retry loop: a fetch/parse attempt with its
1-based index, or a backoff sleep in milliseconds. -/
inductive TraceEv where
  | attempt : Nat → TraceEv
  | sleep : Nat → TraceEv
deriving DecidableEq, Repr

/-- Number of fetch/parse attempts in a trace. -/
def traceAttemptCount (tr : List TraceEv) : Nat :=
  (tr.filter fun ev => match ev with | .attempt _ => true | _ => false).length

/-- The backoff sleeps of a trace, in order. -/
def traceSleeps (tr : List TraceEv) : List Nat :=
  tr.filterMap fun ev => match ev with | .sleep ms => some ms | _ => none

/-- The retry loop of `fetchAndStore` (calendarStore.ts lines 713-770).
`attempts i` is the outcome of the combined fetch + parse of the i-th
attempt (an exception anywhere in the `try` block — non-2xx status,
network error, abort, or parse error — is one `.error`). `i` is the
current attempt index, `rem` the number of attempts still allowed
(`retries - i + 1`). On a failure with attempts remaining the loop
sleeps `1000 * 2^i` ms (line 768) and retries; on the last failure it
returns `{ ok: false, error }` with the state untouched. `none` models
the `undefined` the JS function returns when `retries = 0`. -/
def fetchLoop (attempts : ℕ → Except Str (List RawEvent)) (now : Int) :
    ℕ → ℕ → StoreState → List TraceEv × Option (StoreState × FetchResult)
  | _, 0, _ => ([], none)
  | i, rem + 1, st =>
    match attempts i with
    | .ok raws => ([.attempt i], some (fetchOnce raws now st))
    | .error e =>
      if rem = 0 then ([.attempt i], some (st, .failure e))
      else
        let rest := fetchLoop attempts now (i + 1) rem st
        (.attempt i :: .sleep (1000 * 2 ^ i) :: rest.1, rest.2)

/-- `fetchAndStore` (calendarStore.ts lines 710-771): run the retry
loop from attempt 1 with the given retry budget. -/
def fetchAndStore (attempts : ℕ → Except Str (List RawEvent)) (retries : ℕ)
    (now : Int) (st : StoreState) :
    List TraceEv × Option (StoreState × FetchResult) :=
  fetchLoop attempts now 1 retries st

/-- `fetchTextWithTimeout` (calendarStore.ts lines 696-708), with the
race against the abort timer made explicit: `arrival = none` means the
timer fired first and aborted the in-flight request (the `fetch`
promise rejects with an abort error); `arrival = some (status, body)`
means the response arrived in time, and a non-2xx status
(`!res.ok`) is raised as `HTTP <status>`. -/
def fetchTextWithTimeout (arrival : Option (Nat × Str)) : Except Str Str :=
  match arrival with
  | none => .error "This operation was aborted".data
  | some (status, body) =>
    if 200 ≤ status && status ≤ 299 then .ok body
    else .error ("HTTP ".data ++ Nat.toDigits 10 status)

/-! ### The public-calendar API handler (`src/unnamed/part_005`)

Query parameters are modelled as `Option Str` (`none` = absent); the
behaviour of `Date.parse` is a platform parameter `dateParse`
(`none` = `NaN`, `some t` = the parsed timestamp). -/

/-- Responses the handler can produce in the modelled sections, with
their HTTP status. -/
inductive ApiResponse where
  | ok : List CalendarEvent → Option Int → ApiResponse
  | badRequest : ApiResponse
  | unauthorized : ApiResponse
  | accepted : ApiResponse
deriving DecidableEq, Repr

/-- The HTTP status code of a response: 200 for the event payload, 400
for the validation error, 401 for a rejected refresh token, 202 for an
accepted refresh. -/
def statusOf : ApiResponse → Nat
  | .ok _ _ => 200
  | .badRequest => 400
  | .unauthorized => 401
  | .accepted => 202

/-- JS truthiness of an optional query-parameter string: absent or
empty is falsy. -/
def strTruthy : Option Str → Bool
  | none => false
  | some s => !s.isEmpty

/-- `parseDateQuery` (part_005 lines 110-116): a falsy query value
yields `null`; otherwise `Date.parse` decides, `NaN` yielding `null`. -/
def parseDateQuery (dateParse : Str → Option Int) : Option Str → Option Int
  | none => none
  | some s => if s.isEmpty then none else dateParse s

/-- The filter predicate of the range read (part_005 lines 126-134): an
event is dropped exactly when it ends strictly before the `start` bound
or starts strictly after the `end` bound; an absent bound filters
nothing. -/
def keepEvent (startDate endDate : Option Int) (ev : CalendarEvent) : Bool :=
  (match startDate with
   | some t => !(ev.«end».dateTime < t)
   | none => true) &&
  (match endDate with
   | some t => !(ev.start.dateTime > t)
   | none => true)

/-- The range-read section of the handler (part_005 lines 107-137):
parse the `start`/`end` query params, return 400 when a truthy param
fails to parse, otherwise 200 with the filtered cache and
`fetchedAt = getLastFetched()`. The first component of the result is
the cache after the request — this section only reads it. -/
def rangeRead (dateParse : Str → Option Int) (cache : List CalendarEvent)
    (lastFetched : Option Int) (startQ endQ : Option Str) :
    List CalendarEvent × ApiResponse :=
  let startDate := parseDateQuery dateParse startQ
  let endDate := parseDateQuery dateParse endQ
  if (strTruthy startQ && startDate.isNone) ||
     (strTruthy endQ && endDate.isNone) then
    (cache, .badRequest)
  else
    (cache, .ok (cache.filter (keepEvent startDate endDate)) lastFetched)

/-- The guard `refresh && String(refresh) !== '0' &&
String(refresh).toLowerCase() !== 'false'` (part_005 line 54). -/
def refreshRequested : Option Str → Bool
  | none => false
  | some s => !s.isEmpty && s != ['0'] && s.map Char.toLower != "false".data

/-- JS `a || b` on two optional strings (an empty string is falsy), as
used for `tokenFromQuery || tokenFromHeader` (part_005 line 58). -/
def jsOrStr (a b : Option Str) : Option Str :=
  match a with
  | some s => if s.isEmpty then b else some s
  | none => b

/-- Outcome of the refresh section: the response sent, and whether
`fetchAndStore` was triggered (asynchronously). -/
structure RefreshOutcome where
  response : ApiResponse
  fetchTriggered : Bool
deriving DecidableEq, Repr

/-- The refresh section of the handler (part_005 lines 53-83): when the
refresh flag is truthy, a configured (truthy) `CALENDAR_REFRESH_TOKEN`
demands a matching supplied token (query param first, else header) —
on a missing or different token the request is rejected with 401 and no
fetch happens; on a match (or with no token configured, where only a
warning is logged) `fetchAndStore` is triggered and 202 is returned
immediately. `none` means the refresh flag was not truthy and control
falls through to the range read. -/
def refreshStep (configuredToken refreshQ tokenQ tokenH : Option Str) :
    Option RefreshOutcome :=
  if refreshRequested refreshQ then
    let supplied := jsOrStr tokenQ tokenH
    if strTruthy configuredToken then
      if !strTruthy supplied || (supplied.getD [] != configuredToken.getD []) then
        some ⟨.unauthorized, false⟩
      else
        some ⟨.accepted, true⟩
    else
      some ⟨.accepted, true⟩
  else
    none

/-! ### Sample data used by the concrete witnesses -/

/-- A concrete well-formed calendar event. -/
def sampleEvent : CalendarEvent :=
  { id := ['u'], subject := some ['M'], room := ['1'],
    start := { dateTime := 100, timeZone := "Asia/Tokyo".data },
    «end» := { dateTime := 200, timeZone := "Asia/Tokyo".data },
    location := none, description := none }

/-- A concrete store state holding `sampleEvent`, with its snapshot
already persisted. -/
def sampleState : StoreState :=
  { cachedEvents := [sampleEvent], lastFetched := some 50,
    diskMain := some (snapshotJson [sampleEvent] (some 50)),
    diskBak := none }

/-- A concrete store state holding `sampleEvent` with an empty disk. -/
def sampleStateNoDisk : StoreState :=
  { cachedEvents := [sampleEvent], lastFetched := some 50,
    diskMain := none, diskBak := none }

/-! ## Theorems -/

/-- Helper: `takeWhile` over an append whose left part wholly satisfies
the predicate and whose right part starts with a failing element. -/
theorem takeWhile_append_of_all (p : Char → Bool) (l₁ l₂ : Str)
    (h₁ : ∀ c ∈ l₁, p c = true)
    (h₂ : ∀ c, l₂.head? = some c → p c = false) :
    (l₁ ++ l₂).takeWhile p = l₁ := by
  induction l₁ with
  | nil =>
    simp only [List.nil_append]
    cases l₂ with
    | nil => rfl
    | cons c cs => simp [List.takeWhile_cons, h₂ c rfl]
  | cons a l ih =>
    simp [List.takeWhile_cons, h₁ a (by simp),
      ih fun c hc => h₁ c (by simp [hc])]

/-- Helper: `dropWhile` over the same split. -/
theorem dropWhile_append_of_all (p : Char → Bool) (l₁ l₂ : Str)
    (h₁ : ∀ c ∈ l₁, p c = true)
    (h₂ : ∀ c, l₂.head? = some c → p c = false) :
    (l₁ ++ l₂).dropWhile p = l₂ := by
  induction l₁ with
  | nil =>
    simp only [List.nil_append]
    cases l₂ with
    | nil => rfl
    | cons c cs => simp [List.dropWhile_cons, h₂ c rfl]
  | cons a l ih =>
    simp [List.dropWhile_cons, h₁ a (by simp),
      ih fun c hc => h₁ c (by simp [hc])]

/-- C2 (amended): the regex `/\[(\d+)\]\s*(.*)/` is not anchored, so the
correct dichotomy is: a title that starts with `[<digits>]` followed by
whitespace yields `room = <digits>` and `subject` = the following text
with no bracket artifacts; a title on which the regex finds no
bracketed-digits token anywhere (`findTag = none`) yields `room = ""`
and `subject` = the original title unchanged. (The original claim's
negative branch — `room = ""` whenever the *leading* pattern is absent —
is refuted by `c2_counterexample`.) -/
theorem c2_amended_room_extraction :
    (∀ ds ws text : Str, ds ≠ [] →
      (∀ c ∈ ds, Char.isDigit c = true) →
      (∀ c ∈ ws, isJsSpace c = true) →
      (∀ c, text.head? = some c → isJsSpace c = false) →
      (∀ c ∈ text, isLineTerm c = false) →
      matchSummary (some ('[' :: (ds ++ (']' :: (ws ++ text))))) =
        (ds, some text)) ∧
    (∀ t : Str, findTag t = none → matchSummary (some t) = ([], some t)) := by
  constructor
  · intro ds ws text hds hdig hws hhead hline
    have hbr : ∀ c : Char, (']' :: (ws ++ text)).head? = some c →
        Char.isDigit c = false := by
      intro c hc
      simp only [List.head?_cons, Option.some.injEq] at hc
      subst hc; decide
    have htake : (ds ++ (']' :: (ws ++ text))).takeWhile Char.isDigit = ds :=
      takeWhile_append_of_all _ _ _ hdig hbr
    have hdrop : (ds ++ (']' :: (ws ++ text))).dropWhile Char.isDigit =
        ']' :: (ws ++ text) :=
      dropWhile_append_of_all _ _ _ hdig hbr
    have hne : ds.isEmpty = false := by
      cases ds with
      | nil => exact absurd rfl hds
      | cons a l => rfl
    have htag : tryTag ('[' :: (ds ++ (']' :: (ws ++ text)))) =
        some (ds, ws ++ text) := by
      simp [tryTag, htake, hdrop, hne]
    have hdropws : (ws ++ text).dropWhile isJsSpace = text :=
      dropWhile_append_of_all _ _ _ hws hhead
    have htaketext : text.takeWhile (fun c => !isLineTerm c) = text :=
      List.takeWhile_eq_self_iff.mpr fun c hc => by simp [hline c hc]
    simp [matchSummary, summaryMatch, findTag, htag, hdropws, htaketext]
  · intro t ht
    simp [matchSummary, summaryMatch, ht]

/-- Counterexample to C2 as stated: the title `x [5] y` does not start
with the `[<digits>]` pattern (`tryTag` fails at its head), yet the
unanchored regex matches in the middle, so `room = "5"` and
`subject = "y"` — not `room = ""` and the unchanged title that the
claim requires. -/
theorem c2_counterexample :
    tryTag ('x' :: ' ' :: '[' :: '5' :: ']' :: ' ' :: 'y' :: []) = none ∧
    matchSummary (some ('x' :: ' ' :: '[' :: '5' :: ']' :: ' ' :: 'y' :: [])) =
      (['5'], some ['y']) := by
  exact ⟨rfl, rfl⟩

/-- Witness for the amended C2 at the concrete title `[101] Math`. -/
theorem c2_witness :
    matchSummary (some "[101] Math".data) = (['1', '0', '1'], some "Math".data) := by
  have h := c2_amended_room_extraction.1 ['1', '0', '1'] [' '] "Math".data
    (by decide) (by decide) (by decide)
    (fun c hc => by
      simp only [show ("Math".data.head? = some 'M') from rfl,
        Option.some.injEq] at hc
      subst hc; decide)
    (by decide)
  exact h

/-- C10: a `VEVENT` record with an absent summary is formatted without
an exception (`formatEvent` is total): `?.` short-circuits, the
destructuring fallback `[null, '', event.summary]` applies, so
`room = ""` and `subject` is the absent value itself (`undefined`,
modelled `none` — not a string); a present but empty summary likewise
yields `room = ""` and `subject = ""`. -/
theorem c10_absent_summary_safe (raw : RawEvent)
    (h : raw.type = "VEVENT".data) :
    (raw.summary = none →
      formatEvents [raw] = [formatEvent raw] ∧
      (formatEvent raw).room = [] ∧ (formatEvent raw).subject = none) ∧
    (raw.summary = some [] →
      (formatEvent raw).room = [] ∧ (formatEvent raw).subject = some []) := by
  constructor
  · intro hs
    refine ⟨by simp [formatEvents, h], ?_, ?_⟩ <;>
      simp [formatEvent, hs, matchSummary]
  · intro hs
    constructor <;> simp [formatEvent, hs, matchSummary, summaryMatch, findTag]

/-- Witness for C10 at a concrete summary-less `VEVENT` record. -/
theorem c10_witness :
    (formatEvent
        { type := "VEVENT".data, uid := ['u'], summary := none,
          start := 0, «end» := 1, location := none,
          description := none }).room = [] ∧
    (formatEvent
        { type := "VEVENT".data, uid := ['u'], summary := none,
          start := 0, «end» := 1, location := none,
          description := none }).subject = none :=
  ((c10_absent_summary_safe _ rfl).1 rfl).2

/-- Helper: the retry loop on a run whose first `k - i` attempts fail
and whose attempt `k` succeeds ends with the effect of that successful
attempt. -/
theorem fetchLoop_first_success (attempts : ℕ → Except Str (List RawEvent))
    (now : Int) (raws : List RawEvent) :
    ∀ rem i k st, i ≤ k → k < i + rem →
      (∀ j, i ≤ j → j < k → ∃ e, attempts j = .error e) →
      attempts k = .ok raws →
      (fetchLoop attempts now i rem st).2 = some (fetchOnce raws now st) := by
  intro rem
  induction rem with
  | zero => intro i k st h1 h2 _ _; omega
  | succ rem ih =>
    intro i k st h1 h2 hfail hok
    by_cases hik : i = k
    · subst hik
      simp [fetchLoop, hok]
    · have hlt : i < k := lt_of_le_of_ne h1 hik
      obtain ⟨e, he⟩ := hfail i le_rfl hlt
      have hrem : ¬ rem = 0 := by omega
      simp only [fetchLoop, he, hrem, if_false]
      exact ih (i + 1) k st (by omega) (by omega)
        (fun j hj1 hj2 => hfail j (by omega) hj2) hok

/-- Helper: the retry loop on a run whose every attempt fails returns
the last error and the untouched state, having made `rem + 1` attempts
with a doubling backoff sleep after each non-final one. -/
theorem fetchLoop_all_fail (attempts : ℕ → Except Str (List RawEvent))
    (errs : ℕ → Str) (now : Int) :
    ∀ rem i st,
      (∀ j, i ≤ j → j < i + (rem + 1) → attempts j = .error (errs j)) →
      (fetchLoop attempts now i (rem + 1) st).2 =
        some (st, .failure (errs (i + rem))) ∧
      traceAttemptCount (fetchLoop attempts now i (rem + 1) st).1 = rem + 1 ∧
      traceSleeps (fetchLoop attempts now i (rem + 1) st).1 =
        (List.range rem).map (fun k => 1000 * 2 ^ (i + k)) := by
  intro rem
  induction rem with
  | zero =>
    intro i st h
    have hi := h i le_rfl (by omega)
    simp [fetchLoop, hi, traceAttemptCount, traceSleeps]
  | succ rem ih =>
    intro i st h
    have hi := h i le_rfl (by omega)
    have hne : ¬ rem + 1 = 0 := by omega
    obtain ⟨h1, h2, h3⟩ := ih (i + 1) st fun j hj1 hj2 => h j (by omega) (by omega)
    have hstep : fetchLoop attempts now i (rem + 1 + 1) st =
        (TraceEv.attempt i :: TraceEv.sleep (1000 * 2 ^ i) ::
          (fetchLoop attempts now (i + 1) (rem + 1) st).1,
         (fetchLoop attempts now (i + 1) (rem + 1) st).2) := by
      rw [fetchLoop, hi]
      dsimp only
      rw [if_neg hne]
    refine ⟨?_, ?_, ?_⟩
    · rw [hstep]
      dsimp only
      rw [show i + (rem + 1) = i + 1 + rem from by omega]
      exact h1
    · rw [hstep]
      dsimp only
      simp only [traceAttemptCount] at h2 ⊢
      simp [List.filter_cons]
      omega
    · rw [hstep]
      dsimp only
      simp only [traceSleeps] at h3 ⊢
      simp only [List.filterMap_cons]
      rw [h3, List.range_succ_eq_map, List.map_cons, List.map_map]
      refine congrArg₂ _ (by norm_num) ?_
      refine List.map_congr_left fun a _ => ?_
      simp only [Function.comp]
      rw [show i + (a + 1) = i + 1 + a from by omega]

/-- C1: when a fetch attempt succeeds but formats to zero events while
the in-memory cache is non-empty, `fetchAndStore` keeps the cache and
`lastFetched` intact, backs the existing storage file up to `.bak`,
re-persists the kept snapshot at the storage path, and returns
`{ ok: true, count: cachedEvents.length, keptPrevious: true }`. -/
theorem c1_keeps_previous_on_empty_fetch
    (attempts : ℕ → Except Str (List RawEvent)) (retries k : ℕ) (now : Int)
    (st : StoreState) (raws : List RawEvent)
    (hk1 : 1 ≤ k) (hk2 : k ≤ retries)
    (hfail : ∀ j, 1 ≤ j → j < k → ∃ e, attempts j = .error e)
    (hok : attempts k = .ok raws)
    (hempty : formatEvents raws = [])
    (hcache : st.cachedEvents ≠ []) :
    ∃ st', (fetchAndStore attempts retries now st).2 =
        some (st', FetchResult.success st.cachedEvents.length true) ∧
      st'.cachedEvents = st.cachedEvents ∧
      st'.lastFetched = st.lastFetched ∧
      st'.diskMain = some (snapshotJson st.cachedEvents st.lastFetched) ∧
      (∀ j, st.diskMain = some j → st'.diskBak = some j) := by
  have h := fetchLoop_first_success attempts now raws retries 1 k st hk1
    (by omega) hfail hok
  have hcb : st.cachedEvents.isEmpty = false := by
    cases hc : st.cachedEvents with
    | nil => exact absurd hc hcache
    | cons a l => rfl
  refine ⟨saveToDisk (backupExistingStorage st), ?_, ?_, ?_, ?_, ?_⟩ <;>
    cases hm : st.diskMain <;>
      simp_all [fetchAndStore, fetchOnce, hempty, hcb, saveToDisk,
        backupExistingStorage]

/-- Witness for C1: one attempt that fetches an empty feed over a
one-event cache keeps the event and reports `keptPrevious`. -/
theorem c1_witness :
    ∃ st', (fetchAndStore (fun _ => Except.ok []) 1 0 sampleState).2 =
        some (st', FetchResult.success 1 true) ∧
      st'.cachedEvents = [sampleEvent] ∧
      st'.lastFetched = some 50 ∧
      st'.diskMain = some (snapshotJson [sampleEvent] (some 50)) ∧
      (∀ j, sampleState.diskMain = some j → st'.diskBak = some j) :=
  c1_keeps_previous_on_empty_fetch (fun _ => Except.ok []) 1 1 0
    sampleState []
    le_rfl le_rfl (fun j h1 h2 => absurd (h1.trans_lt h2) (by omega))
    rfl rfl (by simp [sampleState])

/-- C4: when every attempt up to the retry budget fails, `fetchAndStore`
returns `{ ok: false, error: <last error message> }` and the final state
is literally the initial one — cache, `lastFetched` and both disk files
untouched. -/
theorem c4_failure_leaves_state
    (attempts : ℕ → Except Str (List RawEvent)) (errs : ℕ → Str)
    (retries : ℕ) (now : Int) (st : StoreState)
    (hr : 1 ≤ retries)
    (hfail : ∀ j, 1 ≤ j → j ≤ retries → attempts j = .error (errs j)) :
    (fetchAndStore attempts retries now st).2 =
      some (st, FetchResult.failure (errs retries)) := by
  obtain ⟨r, rfl⟩ : ∃ r, retries = r + 1 := ⟨retries - 1, by omega⟩
  have h := (fetchLoop_all_fail attempts errs now r 1 st
    fun j hj1 hj2 => hfail j hj1 (by omega)).1
  rw [fetchAndStore, h]
  have : 1 + r = r + 1 := by omega
  rw [this]

/-- Witness for C4 with two failing attempts over a concrete state. -/
theorem c4_witness :
    (fetchAndStore (fun _ => Except.error ['e']) 2 0 sampleStateNoDisk).2 =
      some (sampleStateNoDisk, FetchResult.failure ['e']) :=
  c4_failure_leaves_state (fun _ => Except.error ['e']) (fun _ => ['e']) 2 0
    sampleStateNoDisk (by omega) (fun _ _ _ => rfl)

/-- Helper: indexing into a mapped range. -/
theorem getD_map_range (f : ℕ → ℕ) (n m : ℕ) (hm : m < n) :
    ((List.range n).map f).getD m 0 = f m := by
  rw [List.getD_eq_getElem?_getD, List.getElem?_map, List.getElem?_range hm]
  rfl

/-- C8: when every attempt fails, the loop makes `retries` attempts in
total (the first plus `retries - 1` retries), sleeps `1000 * 2^i` ms
after the i-th failed attempt — so each successive backoff delay is
double the previous one — and finally returns the failure carrying the
last error's message. The last two conjuncts cover the per-attempt
fetch: a non-2xx response raises `HTTP <status>` and a response that
misses the timeout window is aborted by the timer and surfaces as an
error, both feeding the retry loop as failures. -/
theorem c8_retry_exponential_backoff
    (attempts : ℕ → Except Str (List RawEvent)) (errs : ℕ → Str)
    (retries : ℕ) (now : Int) (st : StoreState)
    (hr : 1 ≤ retries)
    (hfail : ∀ j, 1 ≤ j → j ≤ retries → attempts j = .error (errs j)) :
    (fetchAndStore attempts retries now st).2 =
      some (st, FetchResult.failure (errs retries)) ∧
    traceAttemptCount (fetchAndStore attempts retries now st).1 = retries ∧
    traceSleeps (fetchAndStore attempts retries now st).1 =
      (List.range (retries - 1)).map (fun k => 1000 * 2 ^ (1 + k)) ∧
    (∀ m, m + 1 < retries - 1 →
      (traceSleeps (fetchAndStore attempts retries now st).1).getD (m + 1) 0 =
        2 * (traceSleeps (fetchAndStore attempts retries now st).1).getD m 0) ∧
    (∀ status body, ¬(200 ≤ status ∧ status ≤ 299) →
      fetchTextWithTimeout (some (status, body)) =
        .error ("HTTP ".data ++ Nat.toDigits 10 status)) ∧
    fetchTextWithTimeout none = .error "This operation was aborted".data := by
  obtain ⟨r, rfl⟩ : ∃ r, retries = r + 1 := ⟨retries - 1, by omega⟩
  obtain ⟨h1, h2, h3⟩ := fetchLoop_all_fail attempts errs now r 1 st
    fun j hj1 hj2 => hfail j hj1 (by omega)
  have hidx : 1 + r = r + 1 := by omega
  rw [hidx] at h1
  have hsl : traceSleeps (fetchAndStore attempts (r + 1) now st).1 =
      (List.range (r + 1 - 1)).map (fun k => 1000 * 2 ^ (1 + k)) := by
    rw [fetchAndStore, h3, Nat.add_sub_cancel]
  refine ⟨h1, h2, hsl, ?_, ?_, rfl⟩
  · intro m hm
    rw [hsl, Nat.add_sub_cancel] at *
    rw [getD_map_range _ _ _ (by omega), getD_map_range _ _ _ (by omega)]
    rw [show 1 + (m + 1) = (1 + m) + 1 from by omega, pow_succ]
    ring
  · intro status body hs
    simp only [fetchTextWithTimeout]
    rw [if_neg (by simpa using hs)]

/-- Witness for C8: three failing attempts produce three attempts, two
sleeps of 2000 ms and 4000 ms, and the final failure. -/
theorem c8_witness :
    (fetchAndStore (fun _ => Except.error ['x']) 3 0 sampleStateNoDisk).2 =
      some (sampleStateNoDisk, FetchResult.failure ['x']) ∧
    traceAttemptCount
      (fetchAndStore (fun _ => Except.error ['x']) 3 0 sampleStateNoDisk).1 = 3 ∧
    traceSleeps
      (fetchAndStore (fun _ => Except.error ['x']) 3 0 sampleStateNoDisk).1 =
      (List.range (3 - 1)).map (fun k => 1000 * 2 ^ (1 + k)) ∧
    (∀ m, m + 1 < 3 - 1 →
      (traceSleeps
        (fetchAndStore (fun _ => Except.error ['x']) 3 0
          sampleStateNoDisk).1).getD (m + 1) 0 =
        2 * (traceSleeps
          (fetchAndStore (fun _ => Except.error ['x']) 3 0
            sampleStateNoDisk).1).getD m 0) ∧
    (∀ status body, ¬(200 ≤ status ∧ status ≤ 299) →
      fetchTextWithTimeout (some (status, body)) =
        .error ("HTTP ".data ++ Nat.toDigits 10 status)) ∧
    fetchTextWithTimeout none = .error "This operation was aborted".data :=
  c8_retry_exponential_backoff (fun _ => Except.error ['x']) (fun _ => ['x'])
    3 0 sampleStateNoDisk (by omega) (fun _ _ _ => rfl)

/-- A raw `VEVENT` whose interval is reversed (`start > end`). -/
def reversedRaw : RawEvent :=
  { type := "VEVENT".data, uid := ['u'], summary := some ['s'],
    start := 1, «end» := 0, location := none, description := none }

/-- A raw `VEVENT` with a well-ordered interval and a room tag. -/
def sampleRaw : RawEvent :=
  { type := "VEVENT".data, uid := ['u'], summary := some "[101] Math".data,
    start := 100, «end» := 200, location := none, description := none }

/-- C9 (amended): `formatEvents` copies `start`/`end` into the ISO
fields verbatim, so the `start ≤ end` invariant holds for its output
whenever the raw records satisfy it, and under the same condition a
successful `fetchAndStore` attempt (`fetchOnce`) preserves the
invariant of the cache. Nothing in the code enforces the invariant
unconditionally: `c9_counterexample` exhibits a raw `VEVENT` with
`start > end` that is formatted unchanged. -/
theorem c9_amended_interval_invariant (raws : List RawEvent)
    (h : ∀ r ∈ raws, r.start ≤ r.«end») :
    (∀ e ∈ formatEvents raws, e.start.dateTime ≤ e.«end».dateTime) ∧
    (∀ (now : Int) (st : StoreState),
      (∀ e ∈ st.cachedEvents, e.start.dateTime ≤ e.«end».dateTime) →
      ∀ e ∈ (fetchOnce raws now st).1.cachedEvents,
        e.start.dateTime ≤ e.«end».dateTime) := by
  have hfmt : ∀ e ∈ formatEvents raws, e.start.dateTime ≤ e.«end».dateTime := by
    intro e he
    simp only [formatEvents, List.mem_map, List.mem_filter] at he
    obtain ⟨r, ⟨hr, _⟩, rfl⟩ := he
    simpa [formatEvent] using h r hr
  refine ⟨hfmt, ?_⟩
  intro now st hst e he
  by_cases hb : ((formatEvents raws).isEmpty && !st.cachedEvents.isEmpty) = true
  · cases hm : st.diskMain <;>
      simp only [fetchOnce, hb, if_true, saveToDisk, backupExistingStorage,
        hm] at he <;>
      exact hst e he
  · cases hm : st.diskMain <;>
      simp only [fetchOnce, hb, if_false, saveToDisk, backupExistingStorage,
        hm] at he <;>
      exact hfmt e he

/-- Counterexample to C9 as stated: the cited code formats a `VEVENT`
whose `start` is after its `end` without rejecting or repairing it, so
an event violating `start <= end` reaches the cache. -/
theorem c9_counterexample :
    ((formatEvents [reversedRaw]).all fun e =>
      decide (e.start.dateTime ≤ e.«end».dateTime)) = false := by
  decide

/-- Witness for the amended C9 at a concrete well-ordered raw record. -/
theorem c9_witness :
    (∀ e ∈ formatEvents [sampleRaw], e.start.dateTime ≤ e.«end».dateTime) ∧
    (∀ (now : Int) (st : StoreState),
      (∀ e ∈ st.cachedEvents, e.start.dateTime ≤ e.«end».dateTime) →
      ∀ e ∈ (fetchOnce [sampleRaw] now st).1.cachedEvents,
        e.start.dateTime ≤ e.«end».dateTime) :=
  c9_amended_interval_invariant [sampleRaw] (by decide)

/-- C5 (amended): `saveToDisk` performs no temp-file-and-rename step:
its disk operations are exactly a recursive `mkdir` of the cache
directory followed by one direct `writeFile` of the snapshot at the
storage path; in particular no `rename` occurs, so the write does not
follow the spec's atomic-write discipline. -/
theorem c5_amended_direct_write (base : Str) (events : List CalendarEvent)
    (lf : Option Int) :
    saveToDiskOps base events lf =
      [FsOp.mkdirRec base,
       FsOp.writeFile (storageFile base) (snapshotJson events lf)] ∧
    (saveToDiskOps base events lf).all (fun op =>
      match op with
      | FsOp.rename _ _ => false
      | _ => true) = true ∧
    atomicViaTempRename (saveToDiskOps base events lf) (storageFile base) =
      false :=
  ⟨rfl, rfl, rfl⟩

/-- Counterexample to C5 as stated: at the default storage base the
save issues a direct `writeFile` at the storage path, and no rename
onto that path ever happens — the write-temp-then-rename discipline the
claim asserts is absent. -/
theorem c5_counterexample :
    atomicViaTempRename
      (saveToDiskOps "/tmp/classroom_reservation".data [] none)
      (storageFile "/tmp/classroom_reservation".data) = false ∧
    FsOp.writeFile (storageFile "/tmp/classroom_reservation".data)
        (snapshotJson [] none) ∈
      saveToDiskOps "/tmp/classroom_reservation".data [] none := by
  refine ⟨rfl, ?_⟩
  simp [saveToDiskOps]

/-- Helper: the JSON encoding of an event determines the event — two
events with equal serialisations are equal, so a persisted event array
denotes exactly one event list. -/
theorem eventJson_inj : Function.Injective eventJson := by
  intro e1 e2 h
  obtain ⟨i1, s1, r1, ⟨sd1, sz1⟩, ⟨ed1, ez1⟩, l1, d1⟩ := e1
  obtain ⟨i2, s2, r2, ⟨sd2, sz2⟩, ⟨ed2, ez2⟩, l2, d2⟩ := e2
  cases s1 <;> cases s2 <;> cases l1 <;> cases l2 <;> cases d1 <;> cases d2 <;>
    simp_all [eventJson]

/-- C6 (amended): saving a snapshot and loading it back recovers the
event array exactly (the encoding being injective, that array denotes
the original event list) and recovers `fetchedAt` when it is non-null;
the persisted file is the JSON object
`{ events: CalendarEvent[], lastFetched: number|null }` — the timestamp
key is `lastFetched`, not `fetchedAt`, and a null timestamp is loaded
back as `Date.now()` rather than null (`c6_counterexample`). -/
theorem c6_amended_round_trip (events evs' : List CalendarEvent)
    (t : Int) (lf : Option Int) (now : Int) :
    loadSnapshot (snapshotFields events (some t)) now =
      (Jval.jarr (events.map eventJson), Jval.jnum t) ∧
    (events.map eventJson = evs'.map eventJson → events = evs') ∧
    (snapshotFields events lf).map Prod.fst =
      ["events".data, "lastFetched".data] :=
  ⟨rfl, fun h => List.map_injective_iff.mpr eventJson_inj h, rfl⟩

/-- Counterexample to C6 as stated: saving the snapshot with
`fetchedAt = null` and loading it back at time 42 yields `42`, not
null — the null timestamp does not round-trip — and the persisted
object has no `fetchedAt` key at all (the key is `lastFetched`). -/
theorem c6_counterexample :
    loadSnapshot (snapshotFields [] none) 42 = (Jval.jarr [], Jval.jnum 42) ∧
    Jval.jnum 42 ≠ Jval.jnull ∧
    jlookup (snapshotFields [] none) "fetchedAt".data = none := by
  refine ⟨rfl, by simp, rfl⟩

/-- Witness for the amended C6 on a one-event snapshot. -/
theorem c6_witness :
    loadSnapshot (snapshotFields [sampleEvent] (some 50)) 42 =
      (Jval.jarr [eventJson sampleEvent], Jval.jnum 50) ∧
    [sampleEvent] = [sampleEvent] ∧
    (snapshotFields [sampleEvent] (some 50)).map Prod.fst =
      ["events".data, "lastFetched".data] :=
  ⟨(c6_amended_round_trip [sampleEvent] [sampleEvent] 50 (some 50) 42).1,
   (c6_amended_round_trip [sampleEvent] [sampleEvent] 50 (some 50) 42).2.1 rfl,
   (c6_amended_round_trip [sampleEvent] [sampleEvent] 50 (some 50) 42).2.2⟩

/-- C3: the range read. Parts 1 and 2: a present, non-empty `start`
(resp. `end`) query string on which `Date.parse` fails yields the 400
validation response with the cache left untouched. Part 3: when every
truthy parameter parses, the response is 200, the cache is untouched,
and an event is included exactly when it is in the cache and its
interval overlaps `[start, end]`: it is dropped only if it ends
strictly before the `start` bound or starts strictly after the `end`
bound, and an absent bound filters nothing. -/
theorem c3_range_read_filter (dateParse : Str → Option Int)
    (cache : List CalendarEvent) (lastF : Option Int)
    (startQ endQ : Option Str) :
    (∀ s, startQ = some s → s ≠ [] → dateParse s = none →
      rangeRead dateParse cache lastF startQ endQ = (cache, .badRequest) ∧
      statusOf (rangeRead dateParse cache lastF startQ endQ).2 = 400) ∧
    (∀ s, endQ = some s → s ≠ [] → dateParse s = none →
      rangeRead dateParse cache lastF startQ endQ = (cache, .badRequest) ∧
      statusOf (rangeRead dateParse cache lastF startQ endQ).2 = 400) ∧
    ((strTruthy startQ = true → (parseDateQuery dateParse startQ).isSome) →
     (strTruthy endQ = true → (parseDateQuery dateParse endQ).isSome) →
      rangeRead dateParse cache lastF startQ endQ =
        (cache, .ok (cache.filter (keepEvent (parseDateQuery dateParse startQ)
          (parseDateQuery dateParse endQ))) lastF) ∧
      ∀ ev, ev ∈ cache.filter (keepEvent (parseDateQuery dateParse startQ)
          (parseDateQuery dateParse endQ)) ↔
        ev ∈ cache ∧
        (∀ t, parseDateQuery dateParse startQ = some t →
          ¬ ev.«end».dateTime < t) ∧
        (∀ t, parseDateQuery dateParse endQ = some t →
          ¬ ev.start.dateTime > t)) := by
  refine ⟨?_, ?_, ?_⟩
  · intro s hs hne hp
    subst hs
    have hse : s.isEmpty = false := by
      cases s with
      | nil => exact absurd rfl hne
      | cons a l => rfl
    have h1 : rangeRead dateParse cache lastF (some s) endQ =
        (cache, .badRequest) := by
      simp [rangeRead, parseDateQuery, strTruthy, hse, hp]
    exact ⟨h1, by rw [h1]; rfl⟩
  · intro s hs hne hp
    subst hs
    have hse : s.isEmpty = false := by
      cases s with
      | nil => exact absurd rfl hne
      | cons a l => rfl
    have h1 : rangeRead dateParse cache lastF startQ (some s) =
        (cache, .badRequest) := by
      simp [rangeRead, parseDateQuery, strTruthy, hse, hp]
    exact ⟨h1, by rw [h1]; rfl⟩
  · intro hs he
    have hg1 : (strTruthy startQ &&
        (parseDateQuery dateParse startQ).isNone) = false := by
      cases hst : strTruthy startQ
      · simp
      · obtain ⟨t, ht⟩ := Option.isSome_iff_exists.mp (hs hst)
        simp [ht]
    have hg2 : (strTruthy endQ &&
        (parseDateQuery dateParse endQ).isNone) = false := by
      cases hst : strTruthy endQ
      · simp
      · obtain ⟨t, ht⟩ := Option.isSome_iff_exists.mp (he hst)
        simp [ht]
    constructor
    · simp [rangeRead, hg1, hg2]
    · intro ev
      rw [List.mem_filter]
      refine and_congr_right fun _ => ?_
      cases hsd : parseDateQuery dateParse startQ <;>
        cases hed : parseDateQuery dateParse endQ <;>
          simp [keepEvent, hsd, hed]

/-- Witness for C3: with a parser accepting only `"A"` (as timestamp
5), a malformed `start` gives 400 and a well-formed one gives 200 with
the overlapping event kept. -/
theorem c3_witness :
    rangeRead (fun s => if s = ['A'] then some (5 : Int) else none)
      [sampleEvent] (some 50) (some ['B']) none =
      ([sampleEvent], ApiResponse.badRequest) ∧
    rangeRead (fun s => if s = ['A'] then some (5 : Int) else none)
      [sampleEvent] (some 50) (some ['A']) none =
      ([sampleEvent], ApiResponse.ok [sampleEvent] (some 50)) :=
  ⟨((c3_range_read_filter (fun s => if s = ['A'] then some (5 : Int) else none)
      [sampleEvent] (some 50) (some ['B']) none).1 ['B'] rfl (by decide)
      rfl).1,
   ((c3_range_read_filter (fun s => if s = ['A'] then some (5 : Int) else none)
      [sampleEvent] (some 50) (some ['A']) none).2.2 (fun _ => rfl)
      (fun h => Bool.noConfusion h)).1⟩

/-- C7: the refresh section. With a configured (truthy) token, a
missing supplied token, or a supplied token different from the
configured one, yields 401 and no fetch; a matching token yields 202
with the fetch triggered; with no truthy token configured the refresh
is permitted (202, fetch triggered — the code merely logs a warning).
The last two conjuncts record the status codes of the two responses. -/
theorem c7_refresh_token_auth (c : Str) (cfg refreshQ tokenQ tokenH : Option Str)
    (hreq : refreshRequested refreshQ = true) :
    (c ≠ [] → jsOrStr tokenQ tokenH = none →
      refreshStep (some c) refreshQ tokenQ tokenH =
        some ⟨.unauthorized, false⟩) ∧
    (c ≠ [] → ∀ s, jsOrStr tokenQ tokenH = some s → s ≠ c →
      refreshStep (some c) refreshQ tokenQ tokenH =
        some ⟨.unauthorized, false⟩) ∧
    (c ≠ [] → jsOrStr tokenQ tokenH = some c →
      refreshStep (some c) refreshQ tokenQ tokenH = some ⟨.accepted, true⟩) ∧
    (strTruthy cfg = false →
      refreshStep cfg refreshQ tokenQ tokenH = some ⟨.accepted, true⟩) ∧
    statusOf .unauthorized = 401 ∧ statusOf .accepted = 202 := by
  refine ⟨?_, ?_, ?_, ?_, rfl, rfl⟩
  · intro hc hsup
    have hcs : c.isEmpty = false := by
      cases c with
      | nil => exact absurd rfl hc
      | cons a l => rfl
    simp [refreshStep, hreq, hsup, strTruthy, hcs]
  · intro hc s hsup hsc
    have hcs : c.isEmpty = false := by
      cases c with
      | nil => exact absurd rfl hc
      | cons a l => rfl
    by_cases hse : s.isEmpty = true
    · simp [refreshStep, hreq, hsup, strTruthy, hcs, hse]
    · have hb : (s != c) = true := bne_iff_ne.mpr hsc
      simp [refreshStep, hreq, hsup, strTruthy, hcs, hse, hb]
  · intro hc hsup
    have hcs : c.isEmpty = false := by
      cases c with
      | nil => exact absurd rfl hc
      | cons a l => rfl
    simp [refreshStep, hreq, hsup, strTruthy, hcs]
  · intro hcfg
    simp [refreshStep, hreq, hcfg]

/-- Witness for C7 with `CALENDAR_REFRESH_TOKEN = "secret"`: no token
gives 401 without a fetch, the matching token gives 202 with the fetch
triggered, and an unconfigured token permits the refresh. -/
theorem c7_witness :
    refreshStep (some "secret".data) (some ['1']) none none =
      some ⟨ApiResponse.unauthorized, false⟩ ∧
    refreshStep (some "secret".data) (some ['1']) (some "secret".data) none =
      some ⟨ApiResponse.accepted, true⟩ ∧
    refreshStep none (some ['1']) none none =
      some ⟨ApiResponse.accepted, true⟩ :=
  ⟨(c7_refresh_token_auth "secret".data none (some ['1']) none none
      rfl).1 (by decide) rfl,
   (c7_refresh_token_auth "secret".data none (some ['1'])
      (some "secret".data) none rfl).2.2.1 (by decide) rfl,
   (c7_refresh_token_auth "secret".data none (some ['1']) none none
      rfl).2.2.2.1 rfl⟩

end ClassroomReservation
